import Mathlib

/-!
Verification of `src/train-accelerator.py`, a single-file training driver
that fine-tunes a sequence-to-sequence model for dialogue summarization.
The pure logic of the script (column resolution, preprocessing, the label
pad-token substitution, post-processing, the training-loop step counter,
and the linear control flow of `train`) is embedded shallowly below;
external libraries (tokenizer, model, accelerator) appear as abstract
deterministic parameters or, where the spec fixes their contract, as
definitions modelled from the spec.
-/

namespace TrainAccelerator

/-- The `summarization_name_mapping` dictionary (source lines 28-40):
dataset name to (text column, summary column). -/
def summarization_name_mapping (name : String) : Option (String × String) :=
  if name = "amazon_reviews_multi" then some ("review_body", "review_title")
  else if name = "big_patent" then some ("description", "abstract")
  else if name = "cnn_dailymail" then some ("article", "highlights")
  else if name = "orange_sum" then some ("text", "summary")
  else if name = "pn_summary" then some ("article", "summary")
  else if name = "psc" then some ("extract_text", "summary_text")
  else if name = "samsum" then some ("dialogue", "summary")
  else if name = "thaisum" then some ("body", "summary")
  else if name = "xglue" then some ("news_body", "news_title")
  else if name = "xsum" then some ("document", "summary")
  else if name = "wiki_summary" then some ("article", "highlights")
  else none

/-- The configuration dictionary (source lines 244-259), restricted to the
fields the embedded code reads. -/
structure Config where
  output_dir : Option String
  model_ckpt : String
  dataset_name : String
  num_train_epochs : Nat
  max_target_length : Nat
  padding : String

/-- Abstract interface of the pretrained tokenizer, an external collaborator
treated as an opaque deterministic function: `encode` maps (max length,
padding mode, text) to (input ids, attention mask); `encodeTarget` is the
target-tokenizer mode used for labels (source lines 83 and 86-87). -/
structure Tokenizer where
  encode : Nat → String → String → List Nat × List Nat
  encodeTarget : Nat → String → String → List Nat
  padTokenId : Nat

/-- A batched mapping of raw examples: column name to the column of string
values, `none` when the column is absent (a missing key raises in Python). -/
def RawBatch : Type := String → Option (List String)

/-- The mapping produced by `preprocess_function`: `input_ids`,
`attention_mask` and `labels` fields. -/
structure ModelInputs where
  input_ids : List (List Nat)
  attention_mask : List (List Nat)
  labels : List (List Int)

/-- The label substitution of source lines 90-92: every occurrence of the
tokenizer pad-token id inside a label sequence is replaced by -100. -/
def replaceIgnore (pad : Nat) (label : List Int) : List Int :=
  label.map (fun l => if l = (pad : Int) then -100 else l)

/-- Token ids produced by the tokenizer, viewed as Python ints. -/
def natsToInts (l : List Nat) : List Int :=
  l.map (fun n => Int.ofNat n)

/-- Column resolution of source lines 73-76: the text column comes from the
hardcoded lookup `summarization_name_mapping.get('samsum')` (falling back to
the first dataset column), the summary column is the literal `'summary'`.
The configuration is in scope but never consulted. -/
def resolveColumns (cfg : Config) (columnNames : List String) : String × String :=
  match summarization_name_mapping "samsum" with
  | some p => (p.1, "summary")
  | none => (columnNames.headD "", "summary")

/-- The target-tokenization of source lines 86-87: every summary string is
tokenized with the configured max target length and padding mode. -/
def tokenizeTargets (tok : Tokenizer) (cfg : Config) (targets : List String) :
    List (List Int) :=
  targets.map (fun t => natsToInts (tok.encodeTarget cfg.max_target_length cfg.padding t))

/-- The labels field computed at source lines 89-94: under `"max_length"`
padding the pad substitution is applied, otherwise the tokenized targets are
used as they are. -/
def preprocessLabels (tok : Tokenizer) (cfg : Config) (targets : List String) :
    List (List Int) :=
  if cfg.padding = "max_length" then
    (tokenizeTargets tok cfg targets).map (replaceIgnore tok.padTokenId)
  else
    tokenizeTargets tok cfg targets

/-- `preprocess_function` (source lines 79-95): read the text and summary
columns, tokenize the inputs at max length 1024 and the targets at the
configured max target length, and under `"max_length"` padding substitute
-100 for pad-token ids in the labels.  A missing column is the Python
`KeyError`. -/
def preprocess_function (tok : Tokenizer) (cfg : Config)
    (textColumn summaryColumn : String) (examples : RawBatch) :
    Except String ModelInputs :=
  match examples textColumn, examples summaryColumn with
  | none, _ => Except.error ("KeyError: " ++ textColumn)
  | some _, none => Except.error ("KeyError: " ++ summaryColumn)
  | some inputs, some targets =>
    Except.ok
      ⟨(inputs.map (fun inp => tok.encode 1024 cfg.padding ("" ++ inp))).map Prod.fst,
       (inputs.map (fun inp => tok.encode 1024 cfg.padding ("" ++ inp))).map Prod.snd,
       preprocessLabels tok cfg targets⟩

/-- Python `str.strip`, embedded over the character list: drop whitespace
from both ends. -/
def pyStrip (s : String) : String :=
  ⟨((s.data.dropWhile Char.isWhitespace).reverse.dropWhile Char.isWhitespace).reverse⟩

/-- `postprocess_text` (source lines 115-123), parameterized by the external
`nltk.sent_tokenize`: strip every string, then rejoin its sentence segments
with newlines. -/
def postprocess_text (sentTokenize : String → List String)
    (preds labels : List String) : List String × List String :=
  ((preds.map pyStrip).map (fun pred => "\n".intercalate (sentTokenize pred)),
   (labels.map pyStrip).map (fun label => "\n".intercalate (sentTokenize label)))

/-- The per-string composition applied by `postprocess_text`. -/
def perString (sentTokenize : String → List String) (s : String) : String :=
  "\n".intercalate (sentTokenize (pyStrip s))

/-- `max_train_steps` (source line 149). -/
def max_train_steps (cfg : Config) (num_update_steps_per_epoch : Nat) : Nat :=
  cfg.num_train_epochs * num_update_steps_per_epoch

/-- One epoch of the inner batch loop (source lines 170-182): the first
argument of the recursion is how many batches the epoch iterator would still
yield; each batch increments `completed_steps` and the loop breaks once the
counter has reached `max_train_steps` (the check sits after the
increment). Returns the counter after the epoch. -/
def runEpochBatches (maxSteps : Nat) : Nat → Nat → Nat
  | 0, c => c
  | n + 1, c =>
    if maxSteps ≤ c + 1 then c + 1 else runEpochBatches maxSteps n (c + 1)

/-- The successive values taken by `completed_steps` during one epoch of the
inner batch loop. -/
def epochTrace (maxSteps : Nat) : Nat → Nat → List Nat
  | 0, _ => []
  | n + 1, c =>
    if maxSteps ≤ c + 1 then [c + 1] else (c + 1) :: epochTrace maxSteps n (c + 1)

/-- The outer epoch loop (source line 168): fold the inner loop over the
per-epoch batch counts, starting from `completed_steps = 0`. -/
def loopCounter (maxSteps : Nat) (yields : List Nat) : Nat :=
  yields.foldl (fun c n => runEpochBatches maxSteps n c) 0

/-- Every value taken by `completed_steps` across the whole training loop. -/
def loopTrace (maxSteps : Nat) : List Nat → Nat → List Nat
  | [], _ => []
  | n :: rest, c =>
    epochTrace maxSteps n c ++ loopTrace maxSteps rest (runEpochBatches maxSteps n c)

/-- The `np.where` restoration of source line 201: -100 label positions are
put back to the pad id before decoding. -/
def restoreLabels (pad : Int) (labelRows : List (List Int)) : List (List Int) :=
  labelRows.map (fun row => row.map (fun l => if l ≠ -100 then l else pad))

/-- The pair handed to `metric.add_batch` in the evaluation loop (source
lines 204-207): the raw `batch_decode` of the generated tokens and of the
restored labels. -/
def evalMetricArgs (decode : List (List Int) → List String)
    (generated labelRows : List (List Int)) (pad : Int) :
    List String × List String :=
  (decode generated, decode (restoreLabels pad labelRows))

/-- Device selection of source line 60. -/
def trainDevice (cudaAvailable : Bool) : String :=
  if cudaAvailable then "cuda" else "cpu"

/-- The message of the guard at source lines 65-66. -/
def decoderStartError : String :=
  "Make sure that `config.decoder_start_token_id` is correctly defined"

/-- The Python error produced at source line 224 when `unwrapped_model` was
never assigned (it is bound only inside the `output_dir is not None` branch,
lines 217-220). -/
def unboundNameError : String :=
  "NameError: name unwrapped_model is not defined"

/-- Modelled from the spec: `accelerator.save`, the save function of the
external accelerate library (not part of this repository), which by the
persistence contract of spec section 4.4 serializes weights only on the
primary process. -/
def acceleratorSaveWrites (isPrimary : Bool) : Bool := isPrimary

/-- Observable events of one run of `train`, in program order. -/
inductive Ev where
  | loadDataset
  | loadTokenizer
  | modelToDevice (device : String)
  | loadModel
  | resizeEmbeddings
  | preprocessData
  | optimizerInit
  | trainingLoop
  | barrier
  | savePretrained (dir : String)
  | diskWrite (dir : String)
  | buildPipeline (device : Nat)
  | demoInference

deriving instance DecidableEq for Ev

/-- Result of a run of `train`: the events it completed, and the error that
ended it, if any. -/
structure RunResult where
  events : List Ev
  error : Option String

/-- The linear control flow of `train` (source lines 51-239), abstracted to
the decisions the claims are about: the decoder-start guard of lines 65-66
fires before preprocessing, optimizer setup and the training loop; the save
block of lines 217-220 runs only when the output directory is set, barrier
first, with the actual disk write done by `accelerator.save`; the
demonstration pipeline of lines 224-230 is then built on hardcoded device 3,
and with the output directory unset it dereferences the unbound
`unwrapped_model`. -/
def trainRun (cudaAvailable isPrimary : Bool)
    (decoderStartTokenId : Option Nat) (outputDir : Option String) : RunResult :=
  match decoderStartTokenId, outputDir with
  | none, _ =>
    ⟨[Ev.loadDataset, Ev.loadTokenizer, Ev.modelToDevice (trainDevice cudaAvailable),
      Ev.loadModel, Ev.resizeEmbeddings], some decoderStartError⟩
  | some _, none =>
    ⟨[Ev.loadDataset, Ev.loadTokenizer, Ev.modelToDevice (trainDevice cudaAvailable),
      Ev.loadModel, Ev.resizeEmbeddings, Ev.preprocessData, Ev.optimizerInit,
      Ev.trainingLoop], some unboundNameError⟩
  | some _, some dir =>
    ⟨[Ev.loadDataset, Ev.loadTokenizer, Ev.modelToDevice (trainDevice cudaAvailable),
      Ev.loadModel, Ev.resizeEmbeddings, Ev.preprocessData, Ev.optimizerInit,
      Ev.trainingLoop, Ev.barrier, Ev.savePretrained dir] ++
     (if acceleratorSaveWrites isPrimary then [Ev.diskWrite dir] else []) ++
     [Ev.buildPipeline 3, Ev.demoInference], none⟩

/-- Event `a` occurs strictly before event `b` in the list `l`. -/
def precedes (a b : Ev) (l : List Ev) : Prop :=
  ∃ l1 l2, l = l1 ++ a :: l2 ∧ b ∈ l2

/-! ### Concrete instances used by the witnesses -/

/-- A concrete abstract tokenizer: pad-token id 0, targets tokenized to
`[5, 0, 0]` (two pad positions). -/
def tok0 : Tokenizer :=
  ⟨fun _ _ _ => ([1, 2], [1, 1]), fun _ _ _ => [5, 0, 0], 0⟩

/-- The configuration literal of source lines 244-259. -/
def cfg0 : Config :=
  ⟨some "bart-samsum-model", "facebook/bart-large-cnn", "samsum", 1, 128, "max_length"⟩

/-- A one-example raw batch with the samsum columns. -/
def ex0 : RawBatch := fun k =>
  if k = "dialogue" then some ["Amanda: I baked cookies. Do you want some?"]
  else if k = "summary" then some ["Amanda baked cookies."]
  else none

/-- A concrete sentence tokenizer satisfying the contract hypotheses of C5. -/
def st0 : String → List String := fun _ => [""]

/-! ### Lemmas about the label substitution -/

lemma replaceIgnore_ne_pad (p : Nat) (l : List Int) :
    ∀ x ∈ replaceIgnore p l, x ≠ (p : Int) := by
  intro x hx
  rcases List.mem_map.1 hx with ⟨a, _, rfl⟩
  by_cases h : a = (p : Int)
  · rw [if_pos h]
    omega
  · rw [if_neg h]
    exact h

lemma replaceIgnore_eq_self (p : Nat) (l : List Int)
    (h : ∀ x ∈ l, x ≠ (p : Int)) : replaceIgnore p l = l := by
  induction l with
  | nil => rfl
  | cons a t ih =>
    have ha : a ≠ (p : Int) := h a (List.mem_cons_self a t)
    have ht : ∀ x ∈ t, x ≠ (p : Int) := fun x hx => h x (List.mem_cons_of_mem a hx)
    simp [replaceIgnore, List.map_cons, if_neg ha] at *
    exact ih ht

lemma replaceIgnore_idem (p : Nat) (l : List Int) :
    replaceIgnore p (replaceIgnore p l) = replaceIgnore p l :=
  replaceIgnore_eq_self p _ (replaceIgnore_ne_pad p l)

lemma preprocessLabels_max (tok : Tokenizer) (cfg : Config) (targets : List String)
    (hpad : cfg.padding = "max_length") :
    preprocessLabels tok cfg targets
      = (tokenizeTargets tok cfg targets).map (replaceIgnore tok.padTokenId) := by
  unfold preprocessLabels
  rw [hpad]
  simp

lemma preprocess_ok_labels (tok : Tokenizer) (cfg : Config) (tc sc : String)
    (examples : RawBatch) (o : ModelInputs)
    (hok : preprocess_function tok cfg tc sc examples = Except.ok o) :
    ∃ targets, examples sc = some targets
      ∧ o.labels = preprocessLabels tok cfg targets := by
  cases hin : examples tc with
  | none => simp [preprocess_function, hin] at hok
  | some inputs =>
    cases htg : examples sc with
    | none => simp [preprocess_function, hin, htg] at hok
    | some targets =>
      simp only [preprocess_function, hin, htg, Except.ok.injEq] at hok
      exact ⟨targets, rfl, by rw [← hok]⟩

lemma get?_map {α β : Type} (f : α → β) :
    ∀ (l : List α) (i : Nat), (l.map f).get? i = (l.get? i).map f := by
  intro l
  induction l with
  | nil => intro i; cases i <;> rfl
  | cons a t ih => intro i; cases i <;> simp [ih]

/-! ### Lemmas about the training loop counter -/

lemma runEpochBatches_no_break (maxSteps : Nat) :
    ∀ (n c : Nat), c + n ≤ maxSteps → runEpochBatches maxSteps n c = c + n := by
  intro n
  induction n with
  | zero => intro c _; rfl
  | succ k ih =>
    intro c h
    by_cases hb : maxSteps ≤ c + 1
    · have hk : k = 0 := by omega
      subst hk
      simp [runEpochBatches, hb]
    · have hr := ih (c + 1) (by omega)
      simp [runEpochBatches, hb, hr]
      omega

lemma runEpochBatches_le (maxSteps : Nat) :
    ∀ (n c : Nat), c < maxSteps → runEpochBatches maxSteps n c ≤ maxSteps := by
  intro n
  induction n with
  | zero => intro c hc; exact Nat.le_of_lt hc
  | succ k ih =>
    intro c hc
    by_cases hb : maxSteps ≤ c + 1
    · simp [runEpochBatches, hb]
      omega
    · simp [runEpochBatches, hb]
      exact ih (c + 1) (by omega)

lemma runEpochBatches_reach (maxSteps : Nat) :
    ∀ (n c : Nat), c < maxSteps → maxSteps ≤ c + n →
      runEpochBatches maxSteps n c = maxSteps := by
  intro n
  induction n with
  | zero => intro c hc h; omega
  | succ k ih =>
    intro c hc h
    by_cases hb : maxSteps ≤ c + 1
    · simp [runEpochBatches, hb]
      omega
    · simp [runEpochBatches, hb]
      exact ih (c + 1) (by omega) (by omega)

lemma epochTrace_le_add (maxSteps : Nat) :
    ∀ (n c : Nat), ∀ v ∈ epochTrace maxSteps n c, v ≤ c + n := by
  intro n
  induction n with
  | zero => intro c v hv; simp [epochTrace] at hv
  | succ k ih =>
    intro c v hv
    by_cases hb : maxSteps ≤ c + 1
    · simp [epochTrace, hb] at hv
      omega
    · simp [epochTrace, hb] at hv
      rcases hv with rfl | hv
      · omega
      · have := ih (c + 1) v hv
        omega

lemma epochTrace_le (maxSteps : Nat) :
    ∀ (n c : Nat), c < maxSteps → ∀ v ∈ epochTrace maxSteps n c, v ≤ maxSteps := by
  intro n
  induction n with
  | zero => intro c _ v hv; simp [epochTrace] at hv
  | succ k ih =>
    intro c hc v hv
    by_cases hb : maxSteps ≤ c + 1
    · simp [epochTrace, hb] at hv
      omega
    · simp [epochTrace, hb] at hv
      rcases hv with rfl | hv
      · omega
      · exact ih (c + 1) (by omega) v hv

lemma loop_replicate (s : Nat) :
    ∀ (k c maxSteps : Nat), c + k * s ≤ maxSteps →
      (List.replicate k s).foldl (fun acc n => runEpochBatches maxSteps n acc) c
          = c + k * s
      ∧ ∀ v ∈ loopTrace maxSteps (List.replicate k s) c, v ≤ maxSteps := by
  intro k
  induction k with
  | zero =>
    intro c maxSteps _
    constructor
    · simp
    · intro v hv
      simp [loopTrace] at hv
  | succ k ih =>
    intro c maxSteps h
    have hmul : (k + 1) * s = k * s + s := Nat.succ_mul k s
    have hcs : c + s ≤ maxSteps := by omega
    have hstep : runEpochBatches maxSteps s c = c + s :=
      runEpochBatches_no_break maxSteps s c hcs
    have hrest := ih (c + s) maxSteps (by omega)
    constructor
    · rw [List.replicate_succ, List.foldl_cons, hstep, hrest.1]
      omega
    · intro v hv
      rw [List.replicate_succ] at hv
      simp only [loopTrace, List.mem_append] at hv
      rcases hv with hv | hv
      · have := epochTrace_le_add maxSteps s c v hv
        omega
      · rw [hstep] at hv
        exact hrest.2 v hv

/-! ### Lemmas about the post-processing function -/

lemma postprocess_text_eq_map (st : String → List String) (P L : List String) :
    postprocess_text st P L = (P.map (perString st), L.map (perString st)) := by
  unfold postprocess_text perString
  rw [List.map_map, List.map_map]
  rfl

lemma perString_idem (st : String → List String)
    (h1 : ∀ s, pyStrip ("\n".intercalate (st s)) = "\n".intercalate (st s))
    (h2 : ∀ s, st ("\n".intercalate (st s)) = st s) (s : String) :
    perString st (perString st s) = perString st s := by
  unfold perString
  rw [h1, h2]

/-! ### Claims -/

/-- C1: under `"max_length"` padding every element of every label sequence
produced by `preprocess_function` differs from the tokenizer pad-token id;
each tokenized position equal to the pad id is rewritten to -100 while all
other positions are unchanged, and the substitution is idempotent. -/
theorem c1_labels_never_pad :
    ∀ (tok : Tokenizer) (cfg : Config) (tc sc : String) (examples : RawBatch)
      (o : ModelInputs),
      cfg.padding = "max_length" →
      preprocess_function tok cfg tc sc examples = Except.ok o →
      (∀ lab ∈ o.labels, ∀ x ∈ lab, x ≠ (tok.padTokenId : Int))
      ∧ (∀ lab ∈ o.labels, replaceIgnore tok.padTokenId lab = lab)
      ∧ (∃ targets, examples sc = some targets ∧
          o.labels = targets.map (fun t =>
            replaceIgnore tok.padTokenId
              (natsToInts (tok.encodeTarget cfg.max_target_length cfg.padding t))))
      ∧ (∀ (p : Nat) (raw : List Nat) (i : Nat),
          (replaceIgnore p (natsToInts raw)).get? i
            = (raw.get? i).map
                (fun n : Nat =>
                  if (n : Int) = (p : Int) then (-100 : Int) else (n : Int))) := by
  intro tok cfg tc sc examples o hpad hok
  obtain ⟨targets, htg, hlabels⟩ := preprocess_ok_labels tok cfg tc sc examples o hok
  rw [preprocessLabels_max tok cfg targets hpad] at hlabels
  refine ⟨?_, ?_, ⟨targets, htg, ?_⟩, ?_⟩
  · intro lab hlab
    rw [hlabels] at hlab
    rcases List.mem_map.1 hlab with ⟨l0, _, rfl⟩
    exact replaceIgnore_ne_pad tok.padTokenId l0
  · intro lab hlab
    rw [hlabels] at hlab
    rcases List.mem_map.1 hlab with ⟨l0, _, rfl⟩
    exact replaceIgnore_idem tok.padTokenId l0
  · rw [hlabels]
    unfold tokenizeTargets
    rw [List.map_map]
    rfl
  · intro p raw i
    simp only [replaceIgnore, natsToInts]
    rw [get?_map, get?_map]
    cases raw.get? i <;> rfl

/-- Witness for C1 at the concrete tokenizer `tok0`, configuration `cfg0`
and batch `ex0`, whose label sequence is `[5, -100, -100]`. -/
theorem c1_labels_never_pad_witness :
    replaceIgnore tok0.padTokenId [5, -100, -100] = [5, -100, -100]
    ∧ (5 : Int) ≠ (tok0.padTokenId : Int) :=
  have h := c1_labels_never_pad tok0 cfg0 "dialogue" "summary" ex0
    ⟨[[1, 2]], [[1, 1]], [[5, -100, -100]]⟩ rfl rfl
  ⟨h.2.1 [5, -100, -100] (by decide),
   h.1 [5, -100, -100] (by decide) 5 (by decide)⟩

/-- C5: `postprocess_text` strips surrounding whitespace and joins the
sentence segments with newlines, and under the sentence-tokenizer contract
(segments joined by newlines are strip-invariant and re-tokenize to the same
segments) it is idempotent: applying it to its own output changes nothing. -/
theorem c5_postprocess_idempotent :
    ∀ (st : String → List String),
      (∀ s, pyStrip ("\n".intercalate (st s)) = "\n".intercalate (st s)) →
      (∀ s, st ("\n".intercalate (st s)) = st s) →
      ∀ (preds labels : List String),
        postprocess_text st (postprocess_text st preds labels).1
            (postprocess_text st preds labels).2
          = postprocess_text st preds labels
        ∧ (postprocess_text st preds labels).1 = preds.map (perString st)
        ∧ (postprocess_text st preds labels).2 = labels.map (perString st) := by
  intro st h1 h2 preds labels
  have hmap := postprocess_text_eq_map st preds labels
  refine ⟨?_, by rw [hmap], by rw [hmap]⟩
  rw [hmap]
  show postprocess_text st (preds.map (perString st)) (labels.map (perString st))
      = (preds.map (perString st), labels.map (perString st))
  rw [postprocess_text_eq_map st, List.map_map, List.map_map]
  have hp : ∀ l : List String,
      l.map (perString st ∘ perString st) = l.map (perString st) :=
    fun l => List.map_congr_left (fun a _ => perString_idem st h1 h2 a)
  rw [hp, hp]

/-- Witness for C5 at the concrete sentence tokenizer `st0` and concrete
string lists. -/
theorem c5_postprocess_idempotent_witness :
    postprocess_text st0
        (postprocess_text st0
          ["Amanda baked cookies. She offers some."] [" ok "]).1
        (postprocess_text st0
          ["Amanda baked cookies. She offers some."] [" ok "]).2
      = postprocess_text st0
          ["Amanda baked cookies. She offers some."] [" ok "] := by
  have h1 : ∀ s, pyStrip ("\n".intercalate (st0 s)) = "\n".intercalate (st0 s) := by
    intro s
    show pyStrip ("\n".intercalate [""]) = "\n".intercalate [""]
    decide
  have h2 : ∀ s, st0 ("\n".intercalate (st0 s)) = st0 s := fun _ => rfl
  exact (c5_postprocess_idempotent st0 h1 h2
    ["Amanda baked cookies. She offers some."] [" ok "]).1

/-- C6: preprocessing is deterministic; on equal raw batches and equal
configurations `preprocess_function` produces identical outputs, field by
field. -/
theorem c6_preprocess_deterministic :
    ∀ (tok : Tokenizer) (cfg : Config) (tc sc : String) (b1 b2 : RawBatch),
      b1 = b2 →
      preprocess_function tok cfg tc sc b1 = preprocess_function tok cfg tc sc b2
      ∧ (∀ o1 o2, preprocess_function tok cfg tc sc b1 = Except.ok o1 →
          preprocess_function tok cfg tc sc b2 = Except.ok o2 →
          o1.input_ids = o2.input_ids
          ∧ o1.attention_mask = o2.attention_mask
          ∧ o1.labels = o2.labels) := by
  intro tok cfg tc sc b1 b2 hb
  subst hb
  refine ⟨rfl, ?_⟩
  intro o1 o2 h1 h2
  rw [h1] at h2
  cases h2
  exact ⟨rfl, rfl, rfl⟩

/-- Witness for C6 at the concrete batch `ex0` given twice. -/
theorem c6_preprocess_deterministic_witness :
    preprocess_function tok0 cfg0 "dialogue" "summary" ex0
      = preprocess_function tok0 cfg0 "dialogue" "summary" ex0 :=
  (c6_preprocess_deterministic tok0 cfg0 "dialogue" "summary" ex0 ex0 rfl).1

/-- C2 counterexample: with 2 epochs and a train dataloader of length 1 the
bound is 2 × 1 = 2, but when the first epoch's batch iterator yields 2
batches (more than the dataloader length) the step counter passes through
the value 3 and ends at 3: the break only exits the inner loop, so the
second epoch increments the counter once more, past the bound, before
halting. -/
theorem c2_step_bound_counterexample :
    loopCounter (2 * 1) [2, 1] = 3
    ∧ ¬ (∀ v ∈ loopTrace (2 * 1) [2, 1] 0, v ≤ 2 * 1) := by
  decide

/-- C2 amended: when every epoch's iterator yields exactly
`steps_per_epoch` batches — as it does in the program, where each epoch
enumerates the same dataloader whose length defines `steps_per_epoch` — the
counter never exceeds `num_train_epochs × steps_per_epoch` and ends exactly
at that bound; and within any single epoch entered below the bound the batch
iteration halts exactly upon reaching the bound even if that epoch's
iterator would yield more batches.  (Across epochs the bound can be
exceeded, as the counterexample shows.) -/
theorem c2_step_bound_amended :
    (∀ (numEpochs stepsPerEpoch : Nat),
       loopCounter (numEpochs * stepsPerEpoch)
           (List.replicate numEpochs stepsPerEpoch)
         = numEpochs * stepsPerEpoch
       ∧ ∀ v ∈ loopTrace (numEpochs * stepsPerEpoch)
             (List.replicate numEpochs stepsPerEpoch) 0,
           v ≤ numEpochs * stepsPerEpoch)
    ∧ (∀ (maxSteps n c : Nat), c < maxSteps →
         runEpochBatches maxSteps n c ≤ maxSteps
         ∧ (maxSteps ≤ c + n → runEpochBatches maxSteps n c = maxSteps)
         ∧ ∀ v ∈ epochTrace maxSteps n c, v ≤ maxSteps) := by
  constructor
  · intro E s
    have h := loop_replicate s E 0 (E * s) (by omega)
    constructor
    · unfold loopCounter
      rw [h.1]
      omega
    · exact h.2
  · intro maxSteps n c hc
    exact ⟨runEpochBatches_le maxSteps n c hc,
           fun h => runEpochBatches_reach maxSteps n c hc h,
           epochTrace_le maxSteps n c hc⟩

/-- Witness for C2 (amended) at 2 epochs of 3 steps, and at a single epoch
entered at counter 2 with bound 5 and 9 pending batches. -/
theorem c2_step_bound_amended_witness :
    loopCounter (2 * 3) (List.replicate 2 3) = 2 * 3
    ∧ runEpochBatches 5 9 2 = 5 :=
  ⟨(c2_step_bound_amended.1 2 3).1,
   (c2_step_bound_amended.2 5 9 2 (by decide)).2.1 (by decide)⟩

/-- C3: the run errors with the decoder-start message exactly when the
model's `decoder_start_token_id` is undefined, and that abort happens before
any preprocessing, optimizer construction, training-loop work or saving. -/
theorem c3_decoder_start_guard :
    ∀ (cuda isPrimary : Bool) (ds : Option Nat) (od : Option String),
      ((trainRun cuda isPrimary ds od).error = some decoderStartError ↔ ds = none)
      ∧ (ds = none →
          Ev.preprocessData ∉ (trainRun cuda isPrimary ds od).events
          ∧ Ev.optimizerInit ∉ (trainRun cuda isPrimary ds od).events
          ∧ Ev.trainingLoop ∉ (trainRun cuda isPrimary ds od).events
          ∧ ∀ d, Ev.savePretrained d ∉ (trainRun cuda isPrimary ds od).events) := by
  intro cuda isPrimary ds od
  cases ds with
  | none =>
    exact ⟨by simp [trainRun], fun _ => by simp [trainRun]⟩
  | some a =>
    cases od with
    | none =>
      refine ⟨⟨fun h => ?_, fun h => nomatch h⟩, fun h => nomatch h⟩
      simp only [trainRun] at h
      exact absurd (Option.some.inj h) (by decide)
    | some dir =>
      refine ⟨⟨fun h => ?_, fun h => nomatch h⟩, fun h => nomatch h⟩
      simp [trainRun] at h

/-- Witness for C3 with an undefined decoder start-token id. -/
theorem c3_decoder_start_guard_witness :
    (trainRun false true none (some "bart-samsum-model")).error
        = some decoderStartError
    ∧ Ev.preprocessData ∉ (trainRun false true none (some "bart-samsum-model")).events := by
  have h := c3_decoder_start_guard false true none (some "bart-samsum-model")
  exact ⟨h.1.mpr rfl, (h.2 rfl).1⟩

/-- C4: in a run that passes the decoder-start guard, `save_pretrained` is
invoked exactly when the output directory is set; the invocation targets the
configured directory and comes strictly after the `wait_for_everyone`
barrier, and the actual disk write (`accelerator.save`, modelled from the
spec) happens exactly on the primary process, also after the barrier; with
no output directory nothing is saved or written. -/
theorem c4_persistence :
    ∀ (cuda isPrimary : Bool) (ds : Option Nat) (od : Option String),
      ds ≠ none →
      ((∃ d, Ev.savePretrained d ∈ (trainRun cuda isPrimary ds od).events)
          ↔ od ≠ none)
      ∧ (∀ d, od = some d →
          Ev.savePretrained d ∈ (trainRun cuda isPrimary ds od).events
          ∧ precedes Ev.barrier (Ev.savePretrained d)
              (trainRun cuda isPrimary ds od).events
          ∧ (Ev.diskWrite d ∈ (trainRun cuda isPrimary ds od).events
              ↔ isPrimary = true)
          ∧ (isPrimary = true →
              precedes Ev.barrier (Ev.diskWrite d)
                (trainRun cuda isPrimary ds od).events))
      ∧ (od = none → ∀ d,
          Ev.savePretrained d ∉ (trainRun cuda isPrimary ds od).events
          ∧ Ev.diskWrite d ∉ (trainRun cuda isPrimary ds od).events) := by
  intro cuda isPrimary ds od hds
  cases ds with
  | none => exact absurd rfl hds
  | some a =>
    refine ⟨?_, ?_, ?_⟩
    · cases od with
      | none =>
        constructor
        · rintro ⟨d, hd⟩
          simp [trainRun] at hd
        · intro h
          exact absurd rfl h
      | some dir =>
        constructor
        · intro _
          exact fun h => nomatch h
        · intro _
          refine ⟨dir, ?_⟩
          cases isPrimary <;> simp [trainRun, acceleratorSaveWrites]
    · intro d hod
      subst hod
      cases isPrimary with
      | true =>
        refine ⟨by simp [trainRun, acceleratorSaveWrites], ?_, ?_, ?_⟩
        · exact ⟨[Ev.loadDataset, Ev.loadTokenizer, Ev.modelToDevice (trainDevice cuda),
                  Ev.loadModel, Ev.resizeEmbeddings, Ev.preprocessData, Ev.optimizerInit,
                  Ev.trainingLoop],
                 [Ev.savePretrained d, Ev.diskWrite d, Ev.buildPipeline 3,
                  Ev.demoInference],
                 rfl, by simp⟩
        · simp [trainRun, acceleratorSaveWrites]
        · intro _
          exact ⟨[Ev.loadDataset, Ev.loadTokenizer, Ev.modelToDevice (trainDevice cuda),
                  Ev.loadModel, Ev.resizeEmbeddings, Ev.preprocessData, Ev.optimizerInit,
                  Ev.trainingLoop],
                 [Ev.savePretrained d, Ev.diskWrite d, Ev.buildPipeline 3,
                  Ev.demoInference],
                 rfl, by simp⟩
      | false =>
        refine ⟨by simp [trainRun, acceleratorSaveWrites], ?_, ?_, fun h => nomatch h⟩
        · exact ⟨[Ev.loadDataset, Ev.loadTokenizer, Ev.modelToDevice (trainDevice cuda),
                  Ev.loadModel, Ev.resizeEmbeddings, Ev.preprocessData, Ev.optimizerInit,
                  Ev.trainingLoop],
                 [Ev.savePretrained d, Ev.buildPipeline 3, Ev.demoInference],
                 rfl, by simp⟩
        · simp [trainRun, acceleratorSaveWrites]
    · intro hod
      subst hod
      intro d
      constructor <;> simp [trainRun]

/-- Witness for C4 on a primary-process run with the configured output
directory. -/
theorem c4_persistence_witness :
    Ev.savePretrained "bart-samsum-model"
        ∈ (trainRun false true (some 0) (some "bart-samsum-model")).events
    ∧ precedes Ev.barrier (Ev.savePretrained "bart-samsum-model")
        (trainRun false true (some 0) (some "bart-samsum-model")).events := by
  have h := (c4_persistence false true (some 0) (some "bart-samsum-model")
    (by decide)).2.1 "bart-samsum-model" rfl
  exact ⟨h.1, h.2.1⟩

/-- C7: whenever the demonstration pipeline is constructed, its device index
is the hardcoded 3, for every run, whatever device the cuda-availability
check selected earlier. -/
theorem c7_pipeline_device :
    ∀ (cuda isPrimary : Bool) (ds : Option Nat) (od : Option String) (d : Nat),
      Ev.buildPipeline d ∈ (trainRun cuda isPrimary ds od).events → d = 3 := by
  intro cuda isPrimary ds od d h
  cases ds <;> cases od <;> cases isPrimary <;>
    simp [trainRun, acceleratorSaveWrites] at h <;> exact h

/-- Witness for C7 on a concrete run that reaches the pipeline step. -/
theorem c7_pipeline_device_witness :
    Ev.buildPipeline 3 ∈ (trainRun false true (some 0) (some "bart-samsum-model")).events
    ∧ 3 = 3 :=
  ⟨by decide,
   c7_pipeline_device false true (some 0) (some "bart-samsum-model") 3 (by decide)⟩

/-- C8: with the output directory unset a run that passes the decoder-start
guard fails with the unbound `unwrapped_model` name error and never reaches
pipeline construction or the demonstration inference; the demonstration step
completes only when the output directory is set. -/
theorem c8_demo_requires_output_dir :
    ∀ (cuda isPrimary : Bool) (ds : Option Nat) (od : Option String),
      (ds ≠ none → od = none →
         (trainRun cuda isPrimary ds od).error = some unboundNameError
         ∧ Ev.demoInference ∉ (trainRun cuda isPrimary ds od).events
         ∧ ∀ d, Ev.buildPipeline d ∉ (trainRun cuda isPrimary ds od).events)
      ∧ (Ev.demoInference ∈ (trainRun cuda isPrimary ds od).events → od ≠ none) := by
  intro cuda isPrimary ds od
  constructor
  · intro hds hod
    subst hod
    cases ds with
    | none => exact absurd rfl hds
    | some a =>
      exact ⟨rfl, by simp [trainRun], fun d => by simp [trainRun]⟩
  · intro hdemo
    cases ds with
    | none => simp [trainRun] at hdemo
    | some a =>
      cases od with
      | none => simp [trainRun] at hdemo
      | some dir => exact fun h => nomatch h

/-- Witness for C8 on a run with a defined decoder start id and no output
directory. -/
theorem c8_demo_requires_output_dir_witness :
    (trainRun false true (some 0) none).error = some unboundNameError :=
  ((c8_demo_requires_output_dir false true (some 0) none).1 (by decide) rfl).1

/-- C9: the evaluation loop hands `metric.add_batch` exactly the raw
`batch_decode` outputs of the generated tokens and of the restored labels;
`postprocess_text` is applied nowhere, and its application would be
observable, since it is not the identity. -/
theorem c9_metric_gets_raw_decodes :
    (∀ (decode : List (List Int) → List String)
       (generated labelRows : List (List Int)) (pad : Int),
       evalMetricArgs decode generated labelRows pad
         = (decode generated, decode (restoreLabels pad labelRows)))
    ∧ (∃ st preds labels, postprocess_text st preds labels ≠ (preds, labels)) := by
  constructor
  · intro decode generated labelRows pad
    rfl
  · refine ⟨st0, ["a"], ["b"], ?_⟩
    decide

/-- C10: the preprocessing columns are the hardcoded samsum pair
("dialogue", "summary") for every configuration — the configured dataset
name never influences them — and a batch lacking the "dialogue" column makes
preprocessing fail. -/
theorem c10_hardcoded_columns :
    (∀ (cfg : Config) (columnNames : List String),
       resolveColumns cfg columnNames = ("dialogue", "summary"))
    ∧ (∀ (tok : Tokenizer) (cfg : Config) (examples : RawBatch),
        examples "dialogue" = none →
        preprocess_function tok cfg "dialogue" "summary" examples
          = Except.error ("KeyError: " ++ "dialogue")) := by
  constructor
  · intro cfg columnNames
    rfl
  · intro tok cfg examples h
    simp [preprocess_function, h]

/-- Witness for C10 on an empty raw batch. -/
theorem c10_hardcoded_columns_witness :
    preprocess_function tok0 cfg0 "dialogue" "summary" (fun _ => none)
      = Except.error ("KeyError: " ++ "dialogue") :=
  c10_hardcoded_columns.2 tok0 cfg0 (fun _ => none) rfl

end TrainAccelerator
